import Mathlib

/-!
Shallow embedding of the Living Memory Vault core pipeline.

The embedding follows the three source modules:
  - ingestion: modality-specific normalization and batch ingestion
    (`process_text_file`, `process_word_file`, `process_audio_file`,
    `process_image_file`, `ingest_files`);
  - embeddings: the vector store wrapper (`add_memories`);
  - rag: context assembly and response packaging (`generate_response`).

External effects (file reads, external model calls, disk writes) are
modelled as oracle fields carried by each upload: each field records the
outcome the external world would give for that call, `Except.error e`
standing for a raised exception with message `e`.  The uploads directory
is modelled as the list of media side-file names written by the current
batch (a set: a second write to the same path overwrites in place).
-/

namespace LMV

/-- A memory record as built by `ingest_files` (dictionary with keys
content, filename, source_type, upload_time, year, file_path; `year` and
`file_path` may hold the Python value `None`, modelled as `Option`). -/
structure Memory where
  content : String
  filename : String
  source_type : String
  upload_time : String
  year : Option Int
  file_path : Option String
  deriving Repr, DecidableEq

/-- One element of the `uploaded_files` batch: the tuple
`(filename, file_data, source_type, description)` together with the
oracles for every external interaction this upload can trigger.
`mediaWriteError`/`tempWriteError` are the outcomes of the two `open(...,
'wb')`/`write` calls (`some e` = the write raises `e`); `readResult` is
the outcome of reading the bytes back as text (the UTF-8/latin-1 decode
fallback folded in); `docParagraphs` is the outcome of opening the Word
document and listing its paragraph texts; `transcription` and `caption`
are the outcomes of the external speech-to-text and image-captioning
calls.  `uuid` models the `uuid.uuid4()` value drawn for this upload. -/
structure Upload where
  filename : String
  source_type : String
  description : String
  uuid : String
  mediaWriteError : Option String
  tempWriteError : Option String
  readResult : Except String String
  docParagraphs : Except String (List String)
  transcription : Except String String
  caption : Except String String

/-- `process_text_file`: reading the file returns its decoded content;
the decode fallback never raises, so the outcome is the read outcome. -/
def process_text_file (readResult : Except String String) : Except String String :=
  readResult

/-- `process_word_file`: join every paragraph text with newlines; a
failure to open the document propagates. -/
def process_word_file (docParagraphs : Except String (List String)) : Except String String :=
  match docParagraphs with
  | Except.ok ps => Except.ok (String.intercalate "\n" ps)
  | Except.error e => Except.error e

/-- `process_audio_file`: on success prepend the transcription header, on
any exception return the degraded placeholder embedding the error
message.  Total: it never raises. -/
def process_audio_file (transcription : Except String String) : String :=
  match transcription with
  | Except.ok t => "Audio transcription: " ++ t
  | Except.error e =>
      "Audio transcription failed: " ++ e ++ ". This is a placeholder for audio content."

/-- `process_image_file`: on success wrap the caption in the fixed
sentence; a failure of image loading or captioning propagates. -/
def process_image_file (caption : Except String String) : Except String String :=
  match caption with
  | Except.ok c =>
      Except.ok ("This image shows: " ++ c ++
        ". This appears to be a personal memory captured in a photograph.")
  | Except.error e => Except.error e

/-- `source_type in ['image', 'audio']` (the media side-file test). -/
def isMediaType (u : Upload) : Bool :=
  u.source_type == "image" || u.source_type == "audio"

/-- The collision-free media side-file name `f"{uuid.uuid4()}_{filename}"`. -/
def uniqueFilename (u : Upload) : String :=
  u.uuid ++ "_" ++ u.filename

/-- Writing a file: creates the path, or overwrites it in place. -/
def fsWrite (saved : List String) (name : String) : List String :=
  if name ∈ saved then saved else saved ++ [name]

/-- `Path.unlink`: removes the path (guarded by `exists()` in the source,
so removing an absent path is the identity either way). -/
def fsUnlink (saved : List String) (name : String) : List String :=
  saved.filter (fun s => s != name)

/-- The `try`-block modality dispatch of `ingest_files`:
`some` the normalization outcome for a supported `source_type`, `none`
for the `else: continue` branch (unsupported type, skipped). -/
def normalizeResult (u : Upload) : Option (Except String String) :=
  if u.source_type == "text" then some (process_text_file u.readResult)
  else if u.source_type == "word" then some (process_word_file u.docParagraphs)
  else if u.source_type == "audio" then some (Except.ok (process_audio_file u.transcription))
  else if u.source_type == "image" then some (process_image_file u.caption)
  else none

/-- Prepend the user description when provided
(`if description: content = f"Description: {description}\n\n{content}"`). -/
def recordContent (u : Upload) (content : String) : String :=
  if u.description != "" then "Description: " ++ u.description ++ "\n\n" ++ content
  else content

/-- The memory dictionary appended for a successfully normalized upload
(`year` is `None`; `file_path` is the unique media name when one was
saved, else `None`). -/
def mkMemoryFrom (u : Upload) (now : String) (content : String) : Memory :=
  { content := recordContent u content
    filename := u.filename
    source_type := u.source_type
    upload_time := now
    year := none
    file_path := if isMediaType u then some (uniqueFilename u) else none }

/-- Result of a run of `ingest_files`: the `memories` list built so far,
the media side-files of this batch still on disk, and `some e` when an
exception escaped the loop (a raised write error outside the `try`),
aborting the batch. -/
structure IngestOutcome where
  memories : List Memory
  saved : List String
  aborted : Option String
  deriving Repr, DecidableEq

/-- The per-upload loop of `ingest_files`.  For each upload: save the
media side-file (outside the `try`: a write error propagates), write the
scratch file (likewise outside the `try`), then normalize inside the
`try`; on success append the record, on an exception drop the record and
unlink the media side-file, on an unsupported type skip; then continue
with the rest of the batch. -/
def ingestGo (now : String) : List Upload → List Memory → List String → IngestOutcome
  | [], mems, saved => ⟨mems, saved, none⟩
  | u :: rest, mems, saved =>
    match (if isMediaType u then u.mediaWriteError else none) with
    | some e => ⟨mems, saved, some e⟩
    | none =>
      let saved1 := if isMediaType u then fsWrite saved (uniqueFilename u) else saved
      match u.tempWriteError with
      | some e => ⟨mems, saved1, some e⟩
      | none =>
        match normalizeResult u with
        | none => ingestGo now rest mems saved1
        | some (Except.ok content) =>
            ingestGo now rest (mems ++ [mkMemoryFrom u now content]) saved1
        | some (Except.error _) =>
            ingestGo now rest mems
              (if isMediaType u then fsUnlink saved1 (uniqueFilename u) else saved1)

/-- `ingest_files(uploaded_files)`: run the loop over the batch starting
from an empty result list; `now` models `datetime.now().isoformat()`. -/
def ingest_files (now : String) (uploaded_files : List Upload) : IngestOutcome :=
  ingestGo now uploaded_files [] []

/-- A Python metadata value as stored by ChromaDB: a string, an integer,
or `None` (`vnone`). -/
inductive MVal where
  | str (s : String)
  | int (n : Int)
  | vnone
  deriving Repr, DecidableEq

/-- The metadata dictionary built for one record in `add_memories`
(keys filename, source_type, upload_time, year, file_path;
`memory.get('year', '')` and `memory.get('file_path', '')` return the
stored value because the keys are always present — a `None` value is
returned as `None`, not replaced by the default), then
`{k: v for k, v in metadata.items() if v is not None}`. -/
def metaOfMemory (m : Memory) : List (String × MVal) :=
  ([("filename", MVal.str m.filename),
    ("source_type", MVal.str m.source_type),
    ("upload_time", MVal.str m.upload_time),
    ("year", match m.year with | some n => MVal.int n | none => MVal.vnone),
    ("file_path", match m.file_path with | some s => MVal.str s | none => MVal.vnone)]).filter
    (fun kv => kv.2 != MVal.vnone)

/-- One entry of the ChromaDB collection: id, embedding, document text
and metadata.  The embedding type is abstract (`E`). -/
structure StoreEntry (E : Type) where
  id : String
  embedding : E
  document : String
  metadata : List (String × MVal)
  deriving Repr, DecidableEq

/-- `MemoryEmbeddings.add_memories`: return unchanged on an empty batch;
otherwise read `existing_count = len(self.collection.get(limit=10000)['ids'])`
(at most the first 10000 ids), then append one entry per record with id
`memory_{existing_count + i}`, the embedding of its content
(`encode` models `self.model.encode`), the content as document, and the
filtered metadata. -/
def add_memories {E : Type} (encode : String → E) (store : List (StoreEntry E))
    (memories : List Memory) : List (StoreEntry E) :=
  if memories.isEmpty then store
  else
    let existing_count := ((store.take 10000).map (fun entry => entry.id)).length
    store ++ memories.enum.map (fun p =>
      { id := "memory_" ++ toString (existing_count + p.1)
        embedding := encode p.2.content
        document := p.2.content
        metadata := metaOfMemory p.2 })

/-- Metadata of a retrieval result as `generate_response` reads it:
`filename` and `source_type` are always present in stored metadata;
`file_path` is read with `.get` and may be absent (`none`). -/
structure RMeta where
  filename : String
  source_type : String
  file_path : Option String
  deriving Repr, DecidableEq

/-- A retrieval result (`{'content': ..., 'metadata': ...}`; the distance
field is never read by `generate_response`). -/
structure RMem where
  content : String
  metadata : RMeta
  deriving Repr, DecidableEq

/-- A `{'path': ..., 'filename': ...}` media entry of the response. -/
structure MediaRef where
  path : String
  filename : String
  deriving Repr, DecidableEq

/-- The structured answer of `generate_response`. -/
structure RAGResponse where
  response : String
  images : List MediaRef
  audio : List MediaRef
  deriving Repr, DecidableEq

/-- Python `s.lower()`: lower every character (character-by-character map
over the string's characters). -/
def strLower (s : String) : String :=
  String.mk (s.data.map Char.toLower)

/-- Python substring test `pat in s`. -/
def strContains (s pat : String) : Bool :=
  s.data.tails.any (fun t => pat.data.isPrefixOf t)

/-- The image-referencing keywords of the intent override. -/
def image_keywords : List String :=
  ["photo", "image", "picture", "show", "display"]

/-- The audio-referencing keywords of the intent override. -/
def audio_keywords : List String :=
  ["audio", "sound", "recording", "play", "listen", "music", "voice"]

/-- `any(word in query.lower() for word in kws)`. -/
def hasKeyword (query : String) (kws : List String) : Bool :=
  kws.any (fun w => strContains (strLower query) w)

/-- `mem['metadata'].get('source_type') == 'image'`. -/
def isImageMem (m : RMem) : Bool :=
  m.metadata.source_type == "image"

/-- `mem['metadata'].get('source_type') == 'audio'`. -/
def isAudioMem (m : RMem) : Bool :=
  m.metadata.source_type == "audio"

/-- One line of the default context:
`f"Memory from {filename} ({source_type}): {content}"`. -/
def memoryLine (m : RMem) : String :=
  "Memory from " ++ m.metadata.filename ++ " (" ++ m.metadata.source_type ++ "): " ++ m.content

/-- The fixed image-intent context sentence. -/
def imageIntentContext : String :=
  "The user is asking about images/photos in their memories."

/-- The fixed audio-intent context sentence. -/
def audioIntentContext : String :=
  "The user is asking about audio recordings in their memories."

/-- The context-assembly step of `generate_response` (partition by
source_type, newline-join the non-media lines, then the image-intent
override first and the audio-intent override only otherwise). -/
def contextOf (query : String) (retrieved : List RMem) : String :=
  let image_memories := retrieved.filter isImageMem
  let audio_memories := retrieved.filter isAudioMem
  let other_memories := retrieved.filter (fun m => !(isImageMem m || isAudioMem m))
  let context := String.intercalate "\n" (other_memories.map memoryLine)
  if !image_memories.isEmpty && hasKeyword query image_keywords then imageIntentContext
  else if !audio_memories.isEmpty && hasKeyword query audio_keywords then audioIntentContext
  else context

/-- The media-collection loop: keep `{path, filename}` for each result
whose `metadata.get('file_path')` is truthy (present and non-empty). -/
def mediaRefs (mems : List RMem) : List MediaRef :=
  mems.filterMap (fun m =>
    match m.metadata.file_path with
    | some p => if p != "" then some ⟨p, m.metadata.filename⟩ else none
    | none => none)

/-- The fixed no-memories fallback response text. -/
def no_memories_response : String :=
  "I don't have any memories to reference yet. Please upload some files first!"

/-- `RAGSystem.generate_response`: fallback with empty media lists when
nothing was retrieved; otherwise build the context, prompt the generative
model (`gen` models `self.generator(prompt, ...)[0]['generated_text']`),
strip a leading `Answer:` label, wrap in the persona sentence, and attach
the image and audio media lists. -/
def generate_response (gen : String → String) (query : String)
    (retrieved_memories : List RMem) : RAGResponse :=
  if retrieved_memories.isEmpty then
    { response := no_memories_response, images := [], audio := [] }
  else
    let context := contextOf query retrieved_memories
    let prompt := "Question: " ++ query ++ "\nContext: " ++ context ++ "\nAnswer:"
    let generated_text := gen prompt
    let generated_text :=
      if generated_text.startsWith "Answer:" then (generated_text.drop 7).trim
      else generated_text
    { response := "As your memory archivist, I recall: " ++ generated_text
      images := mediaRefs (retrieved_memories.filter isImageMem)
      audio := mediaRefs (retrieved_memories.filter isAudioMem) }

/-! Concrete inputs used by counterexamples and witnesses. -/

/-- A text upload whose file reads back as the empty string. -/
def emptyTextUpload : Upload :=
  { filename := "empty.txt", source_type := "text", description := "", uuid := "u0",
    mediaWriteError := none, tempWriteError := none, readResult := Except.ok "",
    docParagraphs := Except.error "unused", transcription := Except.error "unused",
    caption := Except.error "unused" }

/-- A record whose original upload name is the empty string. -/
def memC2 : Memory :=
  { content := "c", filename := "", source_type := "text", upload_time := "t",
    year := none, file_path := none }

/-- A generic pre-existing store entry. -/
def entryX : StoreEntry Unit :=
  { id := "memory_x", embedding := (), document := "d", metadata := [] }

/-- A generic record to add to a store. -/
def memC3 : Memory :=
  { content := "c3", filename := "f3", source_type := "text", upload_time := "t3",
    year := none, file_path := none }

/-- An audio upload whose transcription call raises `e`. -/
def audioFailUpload (e : String) : Upload :=
  { filename := "m.mp3", source_type := "audio", description := "", uuid := "u5",
    mediaWriteError := none, tempWriteError := none, readResult := Except.error "unused",
    docParagraphs := Except.error "unused", transcription := Except.error e,
    caption := Except.error "unused" }

/-! Shared helper lemmas. -/

/-! Claim theorems. -/

/-- The store entry produced for `memC2` by an empty-store batch. -/
def entryC2 : StoreEntry Unit :=
  { id := "memory_0", embedding := (), document := "c", metadata := metaOfMemory memC2 }

/-- Spec-side per-upload result: the record an upload contributes when
its normalization succeeds, `none` when it is skipped or dropped. -/
def successRecord (now : String) (u : Upload) : Option Memory :=
  match normalizeResult u with
  | some (Except.ok c) => some (mkMemoryFrom u now c)
  | _ => none

/-- Spec-side per-upload media effect: the media side-file an upload
leaves on disk (media type whose normalization succeeded), else `none`. -/
def keptMedia (u : Upload) : Option String :=
  match normalizeResult u with
  | some (Except.ok _) => if isMediaType u then some (uniqueFilename u) else none
  | _ => none

/-- An audio upload whose media side-file write raises "disk full". -/
def diskFullUpload : Upload :=
  { filename := "a.mp3", source_type := "audio", description := "", uuid := "u4",
    mediaWriteError := some "disk full", tempWriteError := none,
    readResult := Except.error "unused", docParagraphs := Except.error "unused",
    transcription := Except.ok "hello", caption := Except.error "unused" }

/-- A healthy text upload that normalizes to "fine". -/
def fineTextUpload : Upload :=
  { filename := "b.txt", source_type := "text", description := "", uuid := "u6",
    mediaWriteError := none, tempWriteError := none, readResult := Except.ok "fine",
    docParagraphs := Except.error "unused", transcription := Except.error "unused",
    caption := Except.error "unused" }

/-- An image upload whose captioning call raises "crash". -/
def imageCrashUpload : Upload :=
  { filename := "p.jpg", source_type := "image", description := "", uuid := "u7",
    mediaWriteError := none, tempWriteError := none, readResult := Except.error "unused",
    docParagraphs := Except.error "unused", transcription := Except.error "unused",
    caption := Except.error "crash" }

/-- A second healthy text upload that normalizes to "three". -/
def fineTextUpload2 : Upload :=
  { filename := "c.txt", source_type := "text", description := "", uuid := "u8",
    mediaWriteError := none, tempWriteError := none, readResult := Except.ok "three",
    docParagraphs := Except.error "unused", transcription := Except.error "unused",
    caption := Except.error "unused" }

/-- An upload of unsupported type "pdf" (its media write oracle is set to
an error to show it is never consulted: the type is not media). -/
def pdfUpload : Upload :=
  { filename := "x.pdf", source_type := "pdf", description := "", uuid := "u9",
    mediaWriteError := some "never reached", tempWriteError := none,
    readResult := Except.ok "ignored", docParagraphs := Except.error "unused",
    transcription := Except.error "unused", caption := Except.error "unused" }

/-- A retrieved image result with a media path. -/
def rmImage : RMem :=
  { content := "a beach",
    metadata := { filename := "p.jpg", source_type := "image", file_path := some "u_p.jpg" } }

/-- A retrieved text result. -/
def rmText : RMem :=
  { content := "beach day",
    metadata := { filename := "a.txt", source_type := "text", file_path := none } }

/-- A retrieved audio result with a media path. -/
def rmAudio : RMem :=
  { content := "song",
    metadata := { filename := "s.mp3", source_type := "audio", file_path := some "u_s.mp3" } }

/-- Spec-side formulation of the returned images list: one pass over the
retrieved results in order, keeping the `{path, filename}` pair of every
image result whose `file_path` is present and non-empty. -/
def imagesSpec (rs : List RMem) : List MediaRef :=
  rs.filterMap (fun m =>
    match m.metadata.file_path with
    | some p => if isImageMem m && p != "" then some ⟨p, m.metadata.filename⟩ else none
    | none => none)

/-- Spec-side formulation of the returned audio list. -/
def audioSpec (rs : List RMem) : List MediaRef :=
  rs.filterMap (fun m =>
    match m.metadata.file_path with
    | some p => if isAudioMem m && p != "" then some ⟨p, m.metadata.filename⟩ else none
    | none => none)

/-- Erase the `file_path` of a retrieval result (leaving content,
filename and source_type). -/
def stripPath (m : RMem) : RMem :=
  { m with metadata := { m.metadata with file_path := none } }

/-- Appending to a non-empty string stays non-empty. -/
lemma append_left_ne_empty (s t : String) (hs : s ≠ "") : s ++ t ≠ "" := by
  intro h
  apply hs
  have hd := congrArg String.data h
  rw [String.data_append] at hd
  exact String.ext (List.append_eq_nil.mp hd).1

/-- The description prefix never erases content: an empty stored content
means the normalized content itself was empty. -/
lemma recordContent_eq_empty (u : Upload) (c : String) (h : recordContent u c = "") :
    c = "" := by
  unfold recordContent at h
  split at h
  · exact absurd h (append_left_ne_empty _ _ (append_left_ne_empty _ _
      (append_left_ne_empty _ _ (by decide))))
  · exact h

/-- Audio normalization always produces a non-empty string. -/
lemma process_audio_file_ne_empty (tr : Except String String) :
    process_audio_file tr ≠ "" := by
  unfold process_audio_file
  cases tr with
  | ok t => exact append_left_ne_empty _ _ (by decide)
  | error e => exact append_left_ne_empty _ _ (append_left_ne_empty _ _ (by decide))

/-- A successful image caption yields a non-empty string. -/
lemma process_image_file_ok_ne_empty (cap : Except String String) (c : String)
    (h : process_image_file cap = Except.ok c) : c ≠ "" := by
  unfold process_image_file at h
  cases cap with
  | ok t =>
      cases h
      exact append_left_ne_empty _ _ (append_left_ne_empty _ _ (by decide))
  | error e => cases h

/-- C9: `add_memories` on an empty record list is a no-op: for every
store content and every embedding function, the store is returned
unchanged, and no embedding is computed (the result does not depend on
`encode`, which is universally quantified and unused). -/
theorem C9_add_memories_empty_noop {E : Type} (encode : String → E)
    (store : List (StoreEntry E)) : add_memories encode store [] = store := rfl

/-- C7: on an empty retrieval list, `generate_response` returns the fixed
no-memories fallback with empty images and audio lists, for every
generative model `gen` (so the generative model is never invoked: the
result does not depend on `gen`). -/
theorem C7_empty_retrieval_fallback (gen : String → String) (query : String) :
    generate_response gen query [] =
      { response := no_memories_response, images := [], audio := [] } := rfl

/-- C2 counterexample: a record whose `filename` is the empty string is
inserted with metadata field `("filename", "")`: an empty-valued field is
NOT stripped before insertion (only `None`-valued fields are). -/
theorem C2_counterexample :
    (add_memories (fun _ => ()) ([] : List (StoreEntry Unit)) [memC2]).map
        (fun entry => entry.metadata) =
      [[("filename", MVal.str ""), ("source_type", MVal.str "text"),
        ("upload_time", MVal.str "t")]]
    ∧ ("filename", MVal.str "") ∈ metaOfMemory memC2 := by
  constructor
  · rfl
  · decide

/-- C2 amended: the metadata mapping inserted into the index by
`add_memories` contains no field whose value is absent (Python `None`):
every `None`-valued field is stripped before insertion, so if no stored
metadata held a `None` value before the batch, none does after.  (Fields
whose value is the empty string are retained.) -/
theorem C2_no_vnone_in_metadata {E : Type} (encode : String → E)
    (store : List (StoreEntry E)) (mems : List Memory)
    (hstore : ∀ entry ∈ store, ∀ kv ∈ entry.metadata, kv.2 ≠ MVal.vnone) :
    ∀ entry ∈ add_memories encode store mems, ∀ kv ∈ entry.metadata,
      kv.2 ≠ MVal.vnone := by
  intro entry hmem kv hkv
  unfold add_memories at hmem
  split at hmem
  · exact hstore entry hmem kv hkv
  · rcases List.mem_append.mp hmem with h | h
    · exact hstore entry h kv hkv
    · rcases List.mem_map.mp h with ⟨p, _, rfl⟩
      have hf := (List.mem_filter.mp hkv).2
      simpa using hf

/-- C2 witness: the amended theorem applied to the concrete empty-store,
one-record batch of the counterexample. -/
theorem C2_witness :
    ((∀ entry ∈ ([] : List (StoreEntry Unit)), ∀ kv ∈ entry.metadata,
        kv.2 ≠ MVal.vnone)
      ∧ entryC2 ∈ add_memories (fun _ => ()) ([] : List (StoreEntry Unit)) [memC2]
      ∧ ("filename", MVal.str "") ∈ entryC2.metadata)
    ∧ (("filename", MVal.str "") : String × MVal).2 ≠ MVal.vnone :=
  ⟨⟨by simp, by decide, by decide⟩,
    C2_no_vnone_in_metadata (fun _ => ()) [] [memC2] (by simp) entryC2 (by decide)
      ("filename", MVal.str "") (by decide)⟩

/-- C3: the code reads the pre-batch entry count through
`collection.get(limit=10000)`, so with 10001 existing entries the next
assigned id is `memory_10000` — not `memory_10001` as the pre-batch count
(and the code's own comment, which claims to fetch all existing IDs)
would demand. -/
theorem C3_count_capped_at_10000 :
    add_memories (fun _ => ()) (List.replicate 10001 entryX) [memC3] =
      List.replicate 10001 entryX ++
        [{ id := "memory_10000", embedding := (), document := "c3",
            metadata := metaOfMemory memC3 }]
    ∧ "memory_10000" ≠ "memory_10001" := by
  constructor
  · unfold add_memories
    rw [if_neg (by decide), List.take_replicate, List.map_replicate,
      List.length_replicate]
    rfl
  · decide

/-- C5: an audio upload whose speech-to-text call raises `e` does not
propagate the exception: normalization returns the non-empty degraded
placeholder embedding `e`, and ingesting that single failing audio file
still yields exactly one memory record without aborting; by contrast a
failing image caption call propagates its exception unchanged out of
`process_image_file`. -/
theorem C5_audio_placeholder_image_propagates (e now : String) :
    process_audio_file (Except.error e) =
        "Audio transcription failed: " ++ e ++ ". This is a placeholder for audio content."
    ∧ process_audio_file (Except.error e) ≠ ""
    ∧ (ingest_files now [audioFailUpload e]).memories.length = 1
    ∧ (ingest_files now [audioFailUpload e]).aborted = none
    ∧ process_image_file (Except.error e) = Except.error e := by
  refine ⟨rfl, ?_, rfl, rfl, rfl⟩
  exact process_audio_file_ne_empty (Except.error e)

/-- C1 counterexample: a text upload whose file content normalizes to the
empty string is NOT discarded: `ingest_files` returns a record whose
`content` is the empty string. -/
theorem C1_counterexample :
    (ingest_files "t0" [emptyTextUpload]).memories.map Memory.content = [""]
    ∧ ¬ (∀ m ∈ (ingest_files "t0" [emptyTextUpload]).memories, m.content ≠ "") := by
  constructor
  · rfl
  · decide

/-- Every memory in the outcome of the ingestion loop is either an
accumulator entry or the record of some upload of the batch whose
normalization succeeded. -/
lemma ingestGo_mem_memories (now : String) (us : List Upload) :
    ∀ (mems : List Memory) (saved : List String),
      ∀ m ∈ (ingestGo now us mems saved).memories,
        m ∈ mems ∨ ∃ u ∈ us, ∃ c, normalizeResult u = some (Except.ok c) ∧
          m = mkMemoryFrom u now c := by
  induction us with
  | nil => intro mems saved m hm; exact Or.inl hm
  | cons u rest ih =>
    intro mems saved m hm
    simp only [ingestGo] at hm
    split at hm
    · exact Or.inl hm
    · split at hm
      · exact Or.inl hm
      · split at hm
        · rcases ih _ _ m hm with h | ⟨v, hv, c, hn, he⟩
          · exact Or.inl h
          · exact Or.inr ⟨v, List.mem_cons_of_mem u hv, c, hn, he⟩
        · rename_i content heq
          rcases ih _ _ m hm with h | ⟨v, hv, c, hn, he⟩
          · rcases List.mem_append.mp h with h1 | h1
            · exact Or.inl h1
            · rcases List.mem_singleton.mp h1 with rfl
              exact Or.inr ⟨u, List.mem_cons_self u rest, content, heq, rfl⟩
          · exact Or.inr ⟨v, List.mem_cons_of_mem u hv, c, hn, he⟩
        · rcases ih _ _ m hm with h | ⟨v, hv, c, hn, he⟩
          · exact Or.inl h
          · exact Or.inr ⟨v, List.mem_cons_of_mem u hv, c, hn, he⟩

/-- C1 amended: records are not discarded for empty content — a record
returned by `ingest_files` can have empty `content`, but only when its
`source_type` is `text` or `word` (an empty file or an empty document);
audio and image records always carry non-empty content because their
normalizations prepend fixed non-empty phrases. -/
theorem C1_empty_content_only_text_or_word (now : String) (us : List Upload)
    (m : Memory) (hm : m ∈ (ingest_files now us).memories) (hc : m.content = "") :
    m.source_type = "text" ∨ m.source_type = "word" := by
  rcases ingestGo_mem_memories now us [] [] m hm with h | ⟨u, _, c, hnorm, rfl⟩
  · exact absurd h (List.not_mem_nil m)
  · have hc0 : c = "" := recordContent_eq_empty u c hc
    subst hc0
    show u.source_type = "text" ∨ u.source_type = "word"
    unfold normalizeResult at hnorm
    split at hnorm
    · rename_i h1
      exact Or.inl (eq_of_beq h1)
    · split at hnorm
      · rename_i h2
        exact Or.inr (eq_of_beq h2)
      · split at hnorm
        · rcases Option.some.inj hnorm with h3
          exact absurd (Except.ok.inj h3)
            (process_audio_file_ne_empty u.transcription)
        · split at hnorm
          · exact absurd (process_image_file_ok_ne_empty u.caption ""
              (Option.some.inj hnorm)) (fun h => h rfl)
          · exact Option.noConfusion hnorm

/-- C1 witness: the amended theorem applied to the empty-text-file batch
of the counterexample. -/
theorem C1_witness :
    (mkMemoryFrom emptyTextUpload "t0" "" ∈ (ingest_files "t0" [emptyTextUpload]).memories
      ∧ (mkMemoryFrom emptyTextUpload "t0" "").content = "")
    ∧ ((mkMemoryFrom emptyTextUpload "t0" "").source_type = "text"
        ∨ (mkMemoryFrom emptyTextUpload "t0" "").source_type = "word") :=
  ⟨⟨by decide, rfl⟩,
    C1_empty_content_only_text_or_word "t0" [emptyTextUpload] _ (by decide) rfl⟩

/-- When no upload of the batch has a pending media- or scratch-file
write failure, the ingestion loop never aborts and appends exactly the
records of the uploads whose normalization succeeded, in order. -/
lemma ingestGo_no_write_failure (now : String) (us : List Upload)
    (h1 : ∀ u ∈ us, u.mediaWriteError = none)
    (h2 : ∀ u ∈ us, u.tempWriteError = none) :
    ∀ (mems : List Memory) (saved : List String),
      (ingestGo now us mems saved).aborted = none ∧
      (ingestGo now us mems saved).memories =
        mems ++ us.filterMap (successRecord now) := by
  induction us with
  | nil => intro mems saved; exact ⟨rfl, by simp [ingestGo]⟩
  | cons u rest ih =>
    intro mems saved
    have hu1 : u.mediaWriteError = none := h1 u (List.mem_cons_self u rest)
    have hu2 : u.tempWriteError = none := h2 u (List.mem_cons_self u rest)
    have ih2 := ih (fun v hv => h1 v (List.mem_cons_of_mem u hv))
      (fun v hv => h2 v (List.mem_cons_of_mem u hv))
    simp only [ingestGo, hu1, hu2, ite_self]
    split <;>
      (refine ⟨(ih2 _ _).1, ?_⟩
       rw [(ih2 _ _).2]
       simp [successRecord, *, List.filterMap_cons])

/-- A media upload (image or audio) is never skipped: its normalization
outcome is `some`. -/
lemma normalizeResult_isSome_of_media (u : Upload) (h : isMediaType u = true) :
    (normalizeResult u).isSome := by
  unfold isMediaType at h
  unfold normalizeResult
  rcases Bool.or_eq_true_iff.mp h with h | h
  · simp [eq_of_beq h]
  · simp [eq_of_beq h]

/-- When no upload of the batch has a pending write failure and the
generated media names are collision-free and fresh, the loop leaves on
disk exactly the accumulated files plus the media side-files of the
media uploads whose normalization succeeded. -/
lemma ingestGo_saved_no_write_failure (now : String) (us : List Upload)
    (h1 : ∀ u ∈ us, u.mediaWriteError = none)
    (h2 : ∀ u ∈ us, u.tempWriteError = none) :
    ∀ saved : List String, (us.map uniqueFilename).Nodup →
      (∀ u ∈ us, uniqueFilename u ∉ saved) →
      ∀ mems : List Memory,
        (ingestGo now us mems saved).saved = saved ++ us.filterMap keptMedia := by
  induction us with
  | nil => intro saved _ _ mems; simp [ingestGo]
  | cons u rest ih =>
    intro saved hnd hfresh mems
    rw [List.map_cons] at hnd
    have hnd2 := List.nodup_cons.mp hnd
    have hu1 := h1 u (List.mem_cons_self u rest)
    have hu2 := h2 u (List.mem_cons_self u rest)
    have ihr := ih (fun v hv => h1 v (List.mem_cons_of_mem u hv))
      (fun v hv => h2 v (List.mem_cons_of_mem u hv))
    simp only [ingestGo, hu1, hu2, ite_self]
    by_cases hm : isMediaType u = true
    · have hfu : uniqueFilename u ∉ saved := hfresh u (List.mem_cons_self u rest)
      have hw : fsWrite saved (uniqueFilename u) = saved ++ [uniqueFilename u] := by
        unfold fsWrite; rw [if_neg hfu]
      have hfresh2 : ∀ v ∈ rest, uniqueFilename v ∉ saved ++ [uniqueFilename u] := by
        intro v hv hin
        rcases List.mem_append.mp hin with h | h
        · exact hfresh v (List.mem_cons_of_mem u hv) h
        · apply hnd2.1
          rw [← List.mem_singleton.mp h]
          exact List.mem_map_of_mem uniqueFilename hv
      rcases Option.isSome_iff_exists.mp (normalizeResult_isSome_of_media u hm) with ⟨r, hr⟩
      cases r with
      | ok c =>
          simp only [hr, hm, if_true, hw]
          rw [ihr (saved ++ [uniqueFilename u]) hnd2.2 hfresh2
            (mems ++ [mkMemoryFrom u now c])]
          simp [keptMedia, hr, hm, List.filterMap_cons, List.append_assoc]
      | error e =>
          have hunl : fsUnlink (saved ++ [uniqueFilename u]) (uniqueFilename u) = saved := by
            unfold fsUnlink
            rw [List.filter_append]
            have hself : [uniqueFilename u].filter (fun s => s != uniqueFilename u) = [] := by
              simp
            rw [hself, List.append_nil]
            apply List.filter_eq_self.mpr
            intro x hx
            exact bne_iff_ne.mpr (fun hxe => hfu (hxe ▸ hx))
          simp only [hr, hm, if_true, hw, hunl]
          rw [ihr saved hnd2.2
            (fun v hv => hfresh v (List.mem_cons_of_mem u hv)) mems]
          simp [keptMedia, hr, List.filterMap_cons]
    · have hm2 : isMediaType u = false := Bool.not_eq_true _ ▸ Bool.of_not_eq_true hm
      simp only [hm2, Bool.false_eq_true, if_false]
      split <;>
        (rw [ihr saved hnd2.2
          (fun v hv => hfresh v (List.mem_cons_of_mem u hv)) _]
         simp [keptMedia, *, List.filterMap_cons, hm2])

/-- C4 counterexample: a disk write failure while persisting the media
side-file happens outside the `try` block, so it propagates and aborts
the whole batch: a following healthy upload (which alone would yield one
record) produces nothing. -/
theorem C4_counterexample :
    ingest_files "t" [diskFullUpload, fineTextUpload] =
      { memories := [], saved := [], aborted := some "disk full" }
    ∧ (ingest_files "t" [fineTextUpload]).memories.length = 1 := by
  constructor
  · rfl
  · rfl

/-- C4 amended: if no upload of the batch has a media- or scratch-file
disk write failure (and the generated media names are collision-free),
then an exception raised during normalization drops only that upload:
the batch never aborts, the returned records are exactly those of the
uploads whose normalization succeeded (in order), and the media
side-files left on disk are exactly those of the media uploads whose
normalization succeeded — the side-file of a failed media upload is
deleted.  A disk write failure, by contrast, propagates and aborts the
batch (see the counterexample). -/
theorem C4_normalization_failure_isolated (now : String) (us : List Upload)
    (h1 : ∀ u ∈ us, u.mediaWriteError = none)
    (h2 : ∀ u ∈ us, u.tempWriteError = none)
    (h3 : (us.map uniqueFilename).Nodup) :
    (ingest_files now us).aborted = none
    ∧ (ingest_files now us).memories = us.filterMap (successRecord now)
    ∧ (ingest_files now us).saved = us.filterMap keptMedia := by
  have hA := ingestGo_no_write_failure now us h1 h2 [] []
  have hB := ingestGo_saved_no_write_failure now us h1 h2 [] h3 (by simp) []
  exact ⟨hA.1, by simpa using hA.2, by simpa using hB⟩

/-- C4 witness: the amended theorem applied to the three-file batch of
the spec's test (file 2 is an image whose captioning raises): two records
come back and the failed image's side-file is gone. -/
theorem C4_witness :
    ((∀ u ∈ [fineTextUpload, imageCrashUpload, fineTextUpload2],
        u.mediaWriteError = none)
      ∧ (∀ u ∈ [fineTextUpload, imageCrashUpload, fineTextUpload2],
          u.tempWriteError = none)
      ∧ ([fineTextUpload, imageCrashUpload, fineTextUpload2].map uniqueFilename).Nodup)
    ∧ ((ingest_files "t1" [fineTextUpload, imageCrashUpload, fineTextUpload2]).aborted = none
      ∧ (ingest_files "t1" [fineTextUpload, imageCrashUpload, fineTextUpload2]).memories =
          [fineTextUpload, imageCrashUpload, fineTextUpload2].filterMap (successRecord "t1")
      ∧ (ingest_files "t1" [fineTextUpload, imageCrashUpload, fineTextUpload2]).saved =
          [fineTextUpload, imageCrashUpload, fineTextUpload2].filterMap keptMedia) :=
  ⟨⟨by decide, by decide, by decide⟩,
    C4_normalization_failure_isolated "t1"
      [fineTextUpload, imageCrashUpload, fineTextUpload2]
      (by decide) (by decide) (by decide)⟩

/-- One loop step on an upload of unsupported type (given its scratch
write succeeds) changes nothing: no record, no media side-file, no
abort. -/
lemma ingestGo_skip_unsupported (now : String) (u : Upload)
    (hs : u.source_type ∉ ["text", "word", "audio", "image"])
    (ht : u.tempWriteError = none)
    (rest : List Upload) (mems : List Memory) (saved : List String) :
    ingestGo now (u :: rest) mems saved = ingestGo now rest mems saved := by
  simp only [List.mem_cons, List.not_mem_nil, or_false, not_or] at hs
  obtain ⟨h1, h2, h3, h4⟩ := hs
  have hmedia : isMediaType u = false := by
    unfold isMediaType
    simp [h4, h3]
  have hnorm : normalizeResult u = none := by
    unfold normalizeResult
    simp [h1, h2, h3, h4]
  simp [ingestGo, hmedia, hnorm, ht]

/-- Removing an unsupported upload anywhere in the batch does not change
the outcome of the ingestion loop. -/
lemma ingestGo_append_skip (now : String) (post : List Upload) (u : Upload)
    (hs : u.source_type ∉ ["text", "word", "audio", "image"])
    (ht : u.tempWriteError = none) :
    ∀ (pre : List Upload) (mems : List Memory) (saved : List String),
      ingestGo now (pre ++ u :: post) mems saved =
        ingestGo now (pre ++ post) mems saved := by
  intro pre
  induction pre with
  | nil =>
      intro mems saved
      exact ingestGo_skip_unsupported now u hs ht post mems saved
  | cons a pre ih =>
      intro mems saved
      simp only [List.cons_append, ingestGo]
      split
      · rfl
      · split
        · rfl
        · split <;> exact ih _ _

/-- C10: an upload whose `source_type` is outside {text, word, audio,
image} contributes nothing to `ingest_files` (no record, no media
side-file, no error) and the rest of the batch is processed exactly as
if the upload were absent — provided its scratch-file write succeeds
(that write happens before the type dispatch). -/
theorem C10_unsupported_type_skipped (now : String) (pre post : List Upload)
    (u : Upload) (hs : u.source_type ∉ ["text", "word", "audio", "image"])
    (ht : u.tempWriteError = none) :
    ingest_files now (pre ++ u :: post) = ingest_files now (pre ++ post) :=
  ingestGo_append_skip now post u hs ht pre [] []

/-- C10 witness: the theorem applied to a concrete batch with a pdf
upload between two text uploads. -/
theorem C10_witness :
    ((pdfUpload.source_type ∉ ["text", "word", "audio", "image"])
      ∧ pdfUpload.tempWriteError = none)
    ∧ ingest_files "t2" ([fineTextUpload] ++ pdfUpload :: [fineTextUpload2]) =
        ingest_files "t2" ([fineTextUpload] ++ [fineTextUpload2]) :=
  ⟨⟨by decide, rfl⟩,
    C10_unsupported_type_skipped "t2" [fineTextUpload] [fineTextUpload2] pdfUpload
      (by decide) rfl⟩

/-- A filtered list is non-empty exactly when some element satisfies the
predicate. -/
lemma filter_isEmpty_false_iff {α : Type} (l : List α) (p : α → Bool) :
    (l.filter p).isEmpty = false ↔ ∃ x ∈ l, p x = true := by
  induction l with
  | nil => simp
  | cons a l ih =>
      by_cases hp : p a = true
      · simp [List.filter_cons, hp]
      · simp only [List.filter_cons, hp, if_neg, Bool.false_eq_true, ite_false, ih]
        simp [hp]

/-- C6: if some retrieved result is an image and the lowercased query
contains an image keyword, the whole context is the fixed image-intent
sentence (suppressing textual memory content); the audio override fires
only when the image check did not match, even when audio keywords and
audio results are present. -/
theorem C6_intent_override_priority (q : String) (rs : List RMem) :
    ((∃ m ∈ rs, m.metadata.source_type = "image") →
        hasKeyword q image_keywords = true →
        contextOf q rs = imageIntentContext)
    ∧ (¬ ((∃ m ∈ rs, m.metadata.source_type = "image") ∧
          hasKeyword q image_keywords = true) →
        (∃ m ∈ rs, m.metadata.source_type = "audio") →
        hasKeyword q audio_keywords = true →
        contextOf q rs = audioIntentContext) := by
  constructor
  · rintro ⟨m, hm, hsrc⟩ hkw
    have himg : (rs.filter isImageMem).isEmpty = false :=
      (filter_isEmpty_false_iff rs isImageMem).mpr
        ⟨m, hm, by simp [isImageMem, hsrc]⟩
    unfold contextOf
    simp [himg, hkw]
  · intro hneg hexa hkwa
    have hcond : (!(rs.filter isImageMem).isEmpty && hasKeyword q image_keywords) = false := by
      cases h : (!(rs.filter isImageMem).isEmpty && hasKeyword q image_keywords) with
      | false => rfl
      | true =>
          rcases Bool.and_eq_true_iff.mp h with ⟨h1, h2⟩
          rcases (filter_isEmpty_false_iff rs isImageMem).mp
            (Bool.not_eq_true' .. ▸ h1) with ⟨m, hm, hp⟩
          exact absurd ⟨⟨m, hm, eq_of_beq hp⟩, h2⟩ hneg
    rcases hexa with ⟨m, hm, hsrc⟩
    have haud : (rs.filter isAudioMem).isEmpty = false :=
      (filter_isEmpty_false_iff rs isAudioMem).mpr
        ⟨m, hm, by simp [isAudioMem, hsrc]⟩
    unfold contextOf
    simp [hcond, haud, hkwa]

/-- C6 witness: a query containing both image and audio keywords over
results containing both an image and an audio memory is routed to the
image-intent context. -/
theorem C6_witness :
    ((∃ m ∈ [rmImage, rmAudio, rmText], m.metadata.source_type = "image")
      ∧ hasKeyword "show me the photo and play the music" image_keywords = true)
    ∧ contextOf "show me the photo and play the music" [rmImage, rmAudio, rmText] =
        imageIntentContext :=
  ⟨⟨⟨rmImage, by decide, rfl⟩, by decide⟩,
    (C6_intent_override_priority "show me the photo and play the music"
        [rmImage, rmAudio, rmText]).1 ⟨rmImage, by decide, rfl⟩ (by decide)⟩

/-- Filtering before a `filterMap` is folding the predicate into the
mapped function. -/
lemma filterMap_of_filter {α β : Type} (p : α → Bool) (f : α → Option β) (l : List α) :
    (l.filter p).filterMap f =
      l.filterMap (fun a => if p a then f a else none) := by
  induction l with
  | nil => rfl
  | cons a l ih =>
      by_cases hp : p a = true
      · simp [List.filter_cons, hp, List.filterMap_cons, ih]
      · simp [List.filter_cons, hp, List.filterMap_cons, ih]

/-- Mapping preserves emptiness. -/
lemma isEmpty_map {α β : Type} (f : α → β) (l : List α) :
    (l.map f).isEmpty = l.isEmpty := by
  cases l <;> rfl

/-- The context (and hence the intent-routing decision) does not depend
on the results' `file_path` fields. -/
lemma contextOf_stripPath (q : String) (rs : List RMem) :
    contextOf q (rs.map stripPath) = contextOf q rs := by
  have e1 : isImageMem ∘ stripPath = isImageMem := funext fun m => rfl
  have e2 : isAudioMem ∘ stripPath = isAudioMem := funext fun m => rfl
  have e3 : ((fun m => !(isImageMem m || isAudioMem m)) ∘ stripPath) =
      (fun m => !(isImageMem m || isAudioMem m)) := funext fun m => rfl
  have e4 : (memoryLine ∘ stripPath) = memoryLine := funext fun m => rfl
  unfold contextOf
  simp only [List.filter_map, e1, e2, e3, isEmpty_map, List.map_map, e4]

/-- The media-collection loop over the type-filtered results equals the
one-pass spec-side list. -/
lemma mediaRefs_filter_eq (rs : List RMem) (p : RMem → Bool) :
    mediaRefs (rs.filter p) =
      rs.filterMap (fun m =>
        match m.metadata.file_path with
        | some fp => if p m && fp != "" then some ⟨fp, m.metadata.filename⟩ else none
        | none => none) := by
  unfold mediaRefs
  rw [filterMap_of_filter]
  congr 1
  funext m
  by_cases hp : p m = true
  · simp only [hp, if_true, Bool.true_and]
  · have hp2 : p m = false := by revert hp; cases p m <;> simp
    simp only [hp2, Bool.false_eq_true, if_false, Bool.false_and]
    cases m.metadata.file_path <;> simp

/-- C8: for every retrieved result list, the returned `images` list is
exactly the `{path, filename}` pairs of the image results with a present,
non-empty `file_path` in retrieval order, likewise `audio` for audio
results; and results lacking a `file_path` still count toward the
intent-routing decision: the context is unchanged if every `file_path`
is erased. -/
theorem C8_media_lists_exact (gen : String → String) (q : String) (rs : List RMem) :
    (generate_response gen q rs).images = imagesSpec rs
    ∧ (generate_response gen q rs).audio = audioSpec rs
    ∧ contextOf q (rs.map stripPath) = contextOf q rs := by
  refine ⟨?_, ?_, contextOf_stripPath q rs⟩
  · unfold generate_response
    split
    · rename_i h
      rw [List.isEmpty_iff.mp h]
      rfl
    · exact mediaRefs_filter_eq rs isImageMem
  · unfold generate_response
    split
    · rename_i h
      rw [List.isEmpty_iff.mp h]
      rfl
    · exact mediaRefs_filter_eq rs isAudioMem

end LMV
